import Mathlib

/-!
Shallow embedding of the `gomedia` manager core (`manager.go` of shoraid/go-media):
the `mediaManagerImpl` struct, its constructor `NewManager`, the alias switch
`Storage`, the single-key delegations and the concurrent batch operations
(`DeleteMany`, `GetURLs`, `GetSignedURLs`).

Modelling conventions:
* Go's `(value, error)` return pairs are kept as pairs `α × Option Err`
  (`none` = nil error = success), so the value returned alongside an error is
  observable, and a nil slice (`nil, err`) is distinguished from a non-nil
  empty slice via `Option (List String)`.
* The manager's `defaultStorage` field may be nil (`Option StorageDriver`);
  invoking an operation through a nil driver is a Go nil-pointer panic, which
  the embedding models as the outer `Option` of every manager operation
  returning `none`.
* The errgroup fan-out in the batch operations is embedded deterministically:
  one unit of work per key, each invoking the single-key delegation exactly
  once; `errgroup.Wait`'s first-error reporting is modelled with the
  lowest-index tie-break (a consistent deterministic total order).
* `time.Duration` is modelled as `Nat`, `io.Reader` file contents as `String`.
-/

namespace GoMedia

/-- Error values declared in `err.go` of the `gomedia` package.  `other`
stands for any further error value a backend driver may produce. -/
inductive Err where
  | internal
  | invalidConfig
  | invalidDefaultStorage
  | invalidKey
  | notFound
  | other (msg : String)
deriving DecidableEq, Repr

/-- Source: `ErrInvalidDefaultStorage = errors.New("media: invalid default storage")`. -/
def ErrInvalidDefaultStorage : Err := Err.invalidDefaultStorage

/-- A backend storage driver: the five single-key operations every storage
entry of the manager's map provides (the `MediaManager` capability set the
manager delegates to), with Go-style `(value, error)` results. -/
structure StorageDriver where
  Delete : String → Option Err
  Exists : String → Bool × Option Err
  GetSignedURL : String → Nat → String × Option Err
  GetURL : String → String × Option Err
  Put : String → String → String × Option Err

/-- Struct `mediaManagerImpl`: the concrete implementation of `MediaManager`.
`storageMap` holds all available storages by alias (a Go map, embedded as an
association list with unique-key lookup semantics); `defaultStorage` is the
currently selected storage, nil (`none`) when unresolved. -/
structure MediaManagerImpl where
  storageMap : List (String × StorageDriver)
  defaultStorage : Option StorageDriver

/-- Go map indexing `storage[alias]`: the comma-ok lookup on the storage map. -/
def lookupDriver : List (String × StorageDriver) → String → Option StorageDriver
  | [], _ => none
  | (k, d) :: rest, a => if k = a then some d else lookupDriver rest a

/-- Constructor `NewManager` creates a new `MediaManager` with a default storage alias.
Returns `ErrInvalidDefaultStorage` if the alias does not exist in the
provided storage map; otherwise binds the map and the resolved driver. -/
def NewManager (defaultStorageAlias : String)
    (storage : List (String × StorageDriver)) : Except Err MediaManagerImpl :=
  match lookupDriver storage defaultStorageAlias with
  | none => Except.error ErrInvalidDefaultStorage
  | some defaultStorage =>
      Except.ok { storageMap := storage, defaultStorage := some defaultStorage }

/-- Method `Storage` returns a new `MediaManager` using the given alias as its
default storage.  If the alias is not found, `defaultStorage` is nil. -/
def MediaManagerImpl.Storage (m : MediaManagerImpl) (a : String) :
    MediaManagerImpl :=
  { storageMap := m.storageMap
    defaultStorage := lookupDriver m.storageMap a }

/-- Method `Delete` removes a single file: `return m.defaultStorage.Delete(ctx, key)`.
The outer `Option` is `none` when `defaultStorage` is nil (panic). -/
def MediaManagerImpl.Delete (m : MediaManagerImpl) (key : String) :
    Option (Option Err) :=
  m.defaultStorage.map fun d => d.Delete key

/-- Method `Exists`: `return m.defaultStorage.Exists(ctx, key)`. -/
def MediaManagerImpl.Exists (m : MediaManagerImpl) (key : String) :
    Option (Bool × Option Err) :=
  m.defaultStorage.map fun d => d.Exists key

/-- Method `GetSignedURL`: `return m.defaultStorage.GetSignedURL(ctx, key, expiry)`. -/
def MediaManagerImpl.GetSignedURL (m : MediaManagerImpl) (key : String)
    (expiry : Nat) : Option (String × Option Err) :=
  m.defaultStorage.map fun d => d.GetSignedURL key expiry

/-- Method `GetURL`: `return m.defaultStorage.GetURL(ctx, key)`. -/
def MediaManagerImpl.GetURL (m : MediaManagerImpl) (key : String) :
    Option (String × Option Err) :=
  m.defaultStorage.map fun d => d.GetURL key

/-- Method `Put`: `return m.defaultStorage.Put(ctx, file, key)`. -/
def MediaManagerImpl.Put (m : MediaManagerImpl) (file key : String) :
    Option (String × Option Err) :=
  m.defaultStorage.map fun d => d.Put file key

/-- Method `Missing` returns true if the file does not exist:
`exists, err := m.Exists(ctx, key); if err != nil { return false, err };
return !exists, nil`. -/
def MediaManagerImpl.Missing (m : MediaManagerImpl) (key : String) :
    Option (Bool × Option Err) :=
  (m.Exists key).map fun r =>
    match r with
    | (_, some e) => (false, some e)
    | (b, none) => (!b, none)

/-- The errgroup fan-out: one unit of work is spawned per key (in input
order), each invoking the per-key operation `f` exactly once; the outcomes
are collected by index.  `none` (a panic in some unit, i.e. a nil-driver
dereference) propagates to the whole group. -/
def spawnAll {α : Type} (f : String → Option α) : List String → Option (List α)
  | [] => some []
  | key :: rest =>
    match f key, spawnAll f rest with
    | some r, some rs => some (r :: rs)
    | _, _ => none

/-- Join `errgroup.Wait`: the first non-nil error among the units' outcomes
(lowest-index tie-break), or nil when every unit succeeded. -/
def firstError : List (Option Err) → Option Err
  | [] => none
  | some e :: _ => some e
  | none :: rest => firstError rest

/-- Method `DeleteMany` removes multiple files concurrently: one unit per key runs
`m.Delete(ctx, key)`; `if err := g.Wait(); err != nil { return err };
return nil`. -/
def MediaManagerImpl.DeleteMany (m : MediaManagerImpl) (keys : List String) :
    Option (Option Err) :=
  (spawnAll m.Delete keys).map firstError

/-- Method `GetSignedURLs` returns signed URLs for multiple files concurrently:
`urls := make([]string, len(keys))`; one unit per key runs
`m.GetSignedURL(ctx, key, expiry)`, a failing unit returns its error, a
succeeding unit writes `urls[i]`; on `g.Wait()` error the call returns
`(nil, err)`, otherwise `(urls, nil)`. -/
def MediaManagerImpl.GetSignedURLs (m : MediaManagerImpl) (keys : List String)
    (expiry : Nat) : Option (Option (List String) × Option Err) :=
  (spawnAll (fun k => m.GetSignedURL k expiry) keys).map fun results =>
    match firstError (results.map Prod.snd) with
    | some e => (none, some e)
    | none => (some (results.map Prod.fst), none)

/-- Method `GetURLs` returns direct URLs for multiple files concurrently; same
fan-out / ordered-collect / fail-fast structure as `GetSignedURLs`, over
`m.GetURL(ctx, key)`. -/
def MediaManagerImpl.GetURLs (m : MediaManagerImpl) (keys : List String) :
    Option (Option (List String) × Option Err) :=
  (spawnAll m.GetURL keys).map fun results =>
    match firstError (results.map Prod.snd) with
    | some e => (none, some e)
    | none => (some (results.map Prod.fst), none)

/-!
Receiver-state embeddings: each Go method has a pointer receiver
`m *mediaManagerImpl`, so its body could in principle mutate `m`.  To make
mutation observable, each method is also embedded in the state monad over the
receiver, following the method body statement by statement (each body only
reads the receiver; none assigns to its fields).
-/

/-- Method `Storage` as a method on the receiver state. -/
def MediaManagerImpl.StorageM (a : String) :
    StateM MediaManagerImpl MediaManagerImpl := do
  let m ← get
  pure (m.Storage a)

/-- Method `Delete` as a method on the receiver state. -/
def MediaManagerImpl.DeleteM (key : String) :
    StateM MediaManagerImpl (Option (Option Err)) := do
  let m ← get
  pure (m.Delete key)

/-- Method `Exists` as a method on the receiver state. -/
def MediaManagerImpl.ExistsM (key : String) :
    StateM MediaManagerImpl (Option (Bool × Option Err)) := do
  let m ← get
  pure (m.Exists key)

/-- Method `GetSignedURL` as a method on the receiver state. -/
def MediaManagerImpl.GetSignedURLM (key : String) (expiry : Nat) :
    StateM MediaManagerImpl (Option (String × Option Err)) := do
  let m ← get
  pure (m.GetSignedURL key expiry)

/-- Method `GetURL` as a method on the receiver state. -/
def MediaManagerImpl.GetURLM (key : String) :
    StateM MediaManagerImpl (Option (String × Option Err)) := do
  let m ← get
  pure (m.GetURL key)

/-- Method `Put` as a method on the receiver state. -/
def MediaManagerImpl.PutM (file key : String) :
    StateM MediaManagerImpl (Option (String × Option Err)) := do
  let m ← get
  pure (m.Put file key)

/-- Method `Missing` as a method on the receiver state. -/
def MediaManagerImpl.MissingM (key : String) :
    StateM MediaManagerImpl (Option (Bool × Option Err)) := do
  let m ← get
  pure (m.Missing key)

/-- Method `DeleteMany` as a method on the receiver state. -/
def MediaManagerImpl.DeleteManyM (keys : List String) :
    StateM MediaManagerImpl (Option (Option Err)) := do
  let m ← get
  pure (m.DeleteMany keys)

/-- Method `GetSignedURLs` as a method on the receiver state. -/
def MediaManagerImpl.GetSignedURLsM (keys : List String) (expiry : Nat) :
    StateM MediaManagerImpl (Option (Option (List String) × Option Err)) := do
  let m ← get
  pure (m.GetSignedURLs keys expiry)

/-- Method `GetURLs` as a method on the receiver state. -/
def MediaManagerImpl.GetURLsM (keys : List String) :
    StateM MediaManagerImpl (Option (Option (List String) × Option Err)) := do
  let m ← get
  pure (m.GetURLs keys)

/-!
Helper lemmas about the fan-out and first-error collection.
-/

theorem spawnAll_eq_map {α : Type} (f : String → Option α) (g : String → α)
    (keys : List String) (h : ∀ k ∈ keys, f k = some (g k)) :
    spawnAll f keys = some (keys.map g) := by
  induction keys with
  | nil => rfl
  | cons k rest ih =>
    have h1 : f k = some (g k) := h k (List.mem_cons_self k rest)
    have h2 : spawnAll f rest = some (rest.map g) :=
      ih fun x hx => h x (List.mem_cons_of_mem _ hx)
    simp [spawnAll, h1, h2]

theorem spawnAll_length {α : Type} (f : String → Option α) :
    ∀ (keys : List String) (rs : List α),
      spawnAll f keys = some rs → rs.length = keys.length := by
  intro keys
  induction keys with
  | nil =>
    intro rs h
    simp only [spawnAll, Option.some.injEq] at h
    simp [← h]
  | cons k rest ih =>
    intro rs h
    simp only [spawnAll] at h
    cases hf : f k with
    | none => rw [hf] at h; exact absurd h (by simp)
    | some r =>
      cases hs : spawnAll f rest with
      | none => rw [hf, hs] at h; exact absurd h (by simp)
      | some rs2 =>
        rw [hf, hs] at h
        simp only [Option.some.injEq] at h
        subst h
        simp [ih rs2 hs]

theorem firstError_eq_none_iff (l : List (Option Err)) :
    firstError l = none ↔ ∀ x ∈ l, x = none := by
  induction l with
  | nil => simp [firstError]
  | cons x rest ih =>
    cases x with
    | some e => simp [firstError]
    | none => simp [firstError, ih]

theorem firstError_isSome (l : List (Option Err))
    (h : ∃ x ∈ l, x ≠ none) : ∃ e, firstError l = some e := by
  rcases h with ⟨x, hx, hne⟩
  cases hfe : firstError l with
  | some e => exact ⟨e, rfl⟩
  | none => exact absurd ((firstError_eq_none_iff l).mp hfe x hx) hne

/-!
Concrete drivers and managers used by the witnesses.
-/

/-- A driver on which every operation succeeds. -/
def okDriver : StorageDriver where
  Delete := fun _ => none
  Exists := fun k => (k == "a", none)
  GetSignedURL := fun k _ => ("signed-" ++ k, none)
  GetURL := fun k => ("url-" ++ k, none)
  Put := fun _ k => ("put-" ++ k, none)

/-- A driver that fails on the key `"bad"` (and whose `Exists` always errors). -/
def badDriver : StorageDriver where
  Delete := fun k => if k == "bad" then some Err.internal else none
  Exists := fun _ => (true, some Err.notFound)
  GetSignedURL := fun k _ =>
    if k == "bad" then ("", some Err.invalidKey) else ("signed-" ++ k, none)
  GetURL := fun k =>
    if k == "bad" then ("", some Err.internal) else ("url-" ++ k, none)
  Put := fun _ k => ("put-" ++ k, none)

/-- A manager whose selected driver is `okDriver`. -/
def okManager : MediaManagerImpl where
  storageMap := [("default", okDriver), ("bad", badDriver)]
  defaultStorage := some okDriver

/-- A manager whose selected driver is `badDriver`. -/
def badManager : MediaManagerImpl where
  storageMap := [("default", okDriver), ("bad", badDriver)]
  defaultStorage := some badDriver

/-- A manager whose selected driver is unresolved (nil). -/
def nilManager : MediaManagerImpl where
  storageMap := [("default", okDriver)]
  defaultStorage := none

/-!
Claim theorems.
-/

/-- Claim C3: for the empty key sequence, every batch operation returns
immediately with success (nil error; a non-nil empty result sequence for
`GetURLs`/`GetSignedURLs`) and spawns zero units of work, hence performs zero
invocations of the selected driver — for every manager, including one whose
selected driver is nil. -/
theorem batch_empty_keys (m : MediaManagerImpl) (expiry : Nat) :
    spawnAll m.Delete [] = some []
    ∧ spawnAll m.GetURL [] = some []
    ∧ spawnAll (fun k => m.GetSignedURL k expiry) [] = some []
    ∧ m.DeleteMany [] = some none
    ∧ m.GetURLs [] = some (some [], none)
    ∧ m.GetSignedURLs [] expiry = some (some [], none) :=
  ⟨rfl, rfl, rfl, rfl, rfl, rfl⟩

/-- Claim C4: `NewManager` fails with `ErrInvalidDefaultStorage` exactly when
the registry is empty or does not contain the default alias; on success it
returns a manager whose bound registry is the given map and whose selected
driver is the registry entry at the default alias. -/
theorem newManager_spec (a : String) (storage : List (String × StorageDriver)) :
    (NewManager a storage = Except.error ErrInvalidDefaultStorage
      ↔ (storage = [] ∨ lookupDriver storage a = none))
    ∧ (∀ d, lookupDriver storage a = some d →
        NewManager a storage
          = Except.ok { storageMap := storage, defaultStorage := some d }) := by
  constructor
  · constructor
    · intro h
      cases hl : lookupDriver storage a with
      | none => exact Or.inr rfl
      | some d =>
        rw [NewManager, hl] at h
        exact absurd h (by simp)
    · intro h
      have hl : lookupDriver storage a = none := by
        rcases h with h | h
        · subst h; rfl
        · exact h
      rw [NewManager, hl]
  · intro d hl
    rw [NewManager, hl]

/-- Claim C4 witness: concrete success and failure instances. -/
theorem newManager_spec_witness :
    (lookupDriver [("default", okDriver)] "default" = some okDriver
      → NewManager "default" [("default", okDriver)]
          = Except.ok { storageMap := [("default", okDriver)],
                        defaultStorage := some okDriver })
    ∧ (NewManager "default" [] = Except.error ErrInvalidDefaultStorage
        ↔ (([] : List (String × StorageDriver)) = []
            ∨ lookupDriver [] "default" = none)) :=
  ⟨fun h => (newManager_spec "default" [("default", okDriver)]).2 okDriver h,
   (newManager_spec "default" []).1⟩

/-- Claim C5: `Storage` returns a new manager sharing the same registry whose
selected driver is the registry entry at the alias; when the alias is absent
the selected driver is nil and no error is produced at this call — the fault
(modelled as the operation evaluating to `none`, a nil dereference) surfaces
only when an operation is later invoked on the unresolved driver. -/
theorem storage_alias_switch (m : MediaManagerImpl) (a : String) :
    (m.Storage a).storageMap = m.storageMap
    ∧ (m.Storage a).defaultStorage = lookupDriver m.storageMap a
    ∧ (lookupDriver m.storageMap a = none →
        ∀ key file : String, ∀ expiry : Nat, ∀ keys : List String,
          (m.Storage a).Delete key = none
          ∧ (m.Storage a).Exists key = none
          ∧ (m.Storage a).GetSignedURL key expiry = none
          ∧ (m.Storage a).GetURL key = none
          ∧ (m.Storage a).Put file key = none
          ∧ (m.Storage a).Missing key = none
          ∧ (keys ≠ [] → (m.Storage a).DeleteMany keys = none)
          ∧ (keys ≠ [] → (m.Storage a).GetURLs keys = none)
          ∧ (keys ≠ [] → (m.Storage a).GetSignedURLs keys expiry = none)) := by
  refine ⟨rfl, rfl, ?_⟩
  intro hnone key file expiry keys
  have hds : (m.Storage a).defaultStorage = none := hnone
  refine ⟨?_, ?_, ?_, ?_, ?_, ?_, ?_, ?_, ?_⟩
  · simp [MediaManagerImpl.Delete, hds]
  · simp [MediaManagerImpl.Exists, hds]
  · simp [MediaManagerImpl.GetSignedURL, hds]
  · simp [MediaManagerImpl.GetURL, hds]
  · simp [MediaManagerImpl.Put, hds]
  · simp [MediaManagerImpl.Missing, MediaManagerImpl.Exists, hds]
  · intro hne
    rcases keys with _ | ⟨k, rest⟩
    · exact absurd rfl hne
    · simp [MediaManagerImpl.DeleteMany, spawnAll,
        MediaManagerImpl.Delete, hds]
  · intro hne
    rcases keys with _ | ⟨k, rest⟩
    · exact absurd rfl hne
    · simp [MediaManagerImpl.GetURLs, spawnAll,
        MediaManagerImpl.GetURL, hds]
  · intro hne
    rcases keys with _ | ⟨k, rest⟩
    · exact absurd rfl hne
    · simp [MediaManagerImpl.GetSignedURLs, spawnAll,
        MediaManagerImpl.GetSignedURL, hds]

/-- Claim C5 witness: switching `okManager` to the absent alias `"missing"`
gives a registry-sharing manager with a nil driver whose operations fault. -/
theorem storage_alias_switch_witness :
    lookupDriver okManager.storageMap "missing" = none
    ∧ (["k"] : List String) ≠ []
    ∧ (okManager.Storage "missing").storageMap = okManager.storageMap
    ∧ (okManager.Storage "missing").defaultStorage
        = lookupDriver okManager.storageMap "missing"
    ∧ (okManager.Storage "missing").Delete "k" = none
    ∧ (okManager.Storage "missing").GetURLs ["k"] = none := by
  have hn : lookupDriver okManager.storageMap "missing" = none := rfl
  have hne : (["k"] : List String) ≠ [] := by simp
  have h := storage_alias_switch okManager "missing"
  have h3 := h.2.2 hn "k" "f" 60 ["k"]
  exact ⟨hn, hne, h.1, h.2.1, h3.1, h3.2.2.2.2.2.2.2.1 hne⟩

/-- Claim C7: each single-key operation (`Delete`, `Exists`, `GetSignedURL`,
`GetURL`, `Put`) is an exact pass-through to the selected driver's
corresponding operation: the same result value and the same error,
unmodified. -/
theorem single_key_passthrough (m : MediaManagerImpl) (d : StorageDriver)
    (key file : String) (expiry : Nat)
    (hd : m.defaultStorage = some d) :
    m.Delete key = some (d.Delete key)
    ∧ m.Exists key = some (d.Exists key)
    ∧ m.GetSignedURL key expiry = some (d.GetSignedURL key expiry)
    ∧ m.GetURL key = some (d.GetURL key)
    ∧ m.Put file key = some (d.Put file key) := by
  refine ⟨?_, ?_, ?_, ?_, ?_⟩ <;>
    simp [MediaManagerImpl.Delete, MediaManagerImpl.Exists,
      MediaManagerImpl.GetSignedURL, MediaManagerImpl.GetURL,
      MediaManagerImpl.Put, hd]

/-- Claim C7 witness: the pass-through at a concrete manager and key. -/
theorem single_key_passthrough_witness :
    badManager.defaultStorage = some badDriver
    ∧ (badManager.Delete "bad" = some (badDriver.Delete "bad")
        ∧ badManager.Exists "bad" = some (badDriver.Exists "bad")
        ∧ badManager.GetSignedURL "bad" 60 = some (badDriver.GetSignedURL "bad" 60)
        ∧ badManager.GetURL "bad" = some (badDriver.GetURL "bad")
        ∧ badManager.Put "f" "bad" = some (badDriver.Put "f" "bad")) :=
  ⟨rfl, single_key_passthrough badManager badDriver "bad" "f" 60 rfl⟩

/-- Claim C8: `Missing` returns the negation of `Exists` when `Exists`
succeeds, and when `Exists` errors it propagates that error unchanged with
result value `false` (never `true` on error). -/
theorem missing_negates_exists (m : MediaManagerImpl) (d : StorageDriver)
    (key : String) (hd : m.defaultStorage = some d) :
    (∀ b, d.Exists key = (b, none) → m.Missing key = some (!b, none))
    ∧ (∀ b e, d.Exists key = (b, some e) →
        m.Missing key = some (false, some e)) := by
  constructor
  · intro b hb
    simp [MediaManagerImpl.Missing, MediaManagerImpl.Exists, hd, hb]
  · intro b e hb
    simp [MediaManagerImpl.Missing, MediaManagerImpl.Exists, hd, hb]

/-- Claim C8 witness: `Missing` on a succeeding `Exists` (`okManager`) and on
an erroring `Exists` (`badManager`, which also returns value `true` alongside
its error yet `Missing` still reports `false`). -/
theorem missing_negates_exists_witness :
    (okDriver.Exists "a" = (true, none)
      → okManager.Missing "a" = some (!true, none))
    ∧ (badDriver.Exists "a" = (true, some Err.notFound)
      → badManager.Missing "a" = some (false, some Err.notFound)) :=
  ⟨fun h => (missing_negates_exists okManager okDriver "a" rfl).1 true h,
   fun h => (missing_negates_exists badManager badDriver "a" rfl).2 true
      Err.notFound h⟩

/-- Claim C6: no manager operation mutates the receiver: in the
receiver-state embedding every method leaves the state (registry and
selected driver) exactly as it was, and `Storage` builds a new value sharing
the registry rather than mutating the original. -/
theorem manager_not_mutated (m : MediaManagerImpl) (a key file : String)
    (expiry : Nat) (keys : List String) :
    (MediaManagerImpl.StorageM a).run m = (m.Storage a, m)
    ∧ (MediaManagerImpl.DeleteM key).run m = (m.Delete key, m)
    ∧ (MediaManagerImpl.ExistsM key).run m = (m.Exists key, m)
    ∧ (MediaManagerImpl.GetSignedURLM key expiry).run m
        = (m.GetSignedURL key expiry, m)
    ∧ (MediaManagerImpl.GetURLM key).run m = (m.GetURL key, m)
    ∧ (MediaManagerImpl.PutM file key).run m = (m.Put file key, m)
    ∧ (MediaManagerImpl.MissingM key).run m = (m.Missing key, m)
    ∧ (MediaManagerImpl.DeleteManyM keys).run m = (m.DeleteMany keys, m)
    ∧ (MediaManagerImpl.GetSignedURLsM keys expiry).run m
        = (m.GetSignedURLs keys expiry, m)
    ∧ (MediaManagerImpl.GetURLsM keys).run m = (m.GetURLs keys, m)
    ∧ (m.Storage a).storageMap = m.storageMap
    ∧ (m.Storage a).defaultStorage = lookupDriver m.storageMap a :=
  ⟨rfl, rfl, rfl, rfl, rfl, rfl, rfl, rfl, rfl, rfl, rfl, rfl⟩

/-- Claim C1: for every non-empty key sequence on which every per-key driver
call succeeds, `GetURLs` and `GetSignedURLs` return (with no error) a result
sequence of the same length as the input whose element at index `i` is the
URL the driver returned for `keys[i]`. -/
theorem batch_all_success (m : MediaManagerImpl) (d : StorageDriver)
    (keys : List String) (expiry : Nat)
    (hd : m.defaultStorage = some d)
    (hne : keys ≠ [])
    (hu : ∀ k ∈ keys, (d.GetURL k).snd = none)
    (hs : ∀ k ∈ keys, (d.GetSignedURL k expiry).snd = none) :
    (∃ urls, m.GetURLs keys = some (some urls, none)
      ∧ urls.length = keys.length
      ∧ ∀ (i : Nat) (hi : i < keys.length) (hi2 : i < urls.length),
          urls[i] = (d.GetURL keys[i]).fst)
    ∧ (∃ urls, m.GetSignedURLs keys expiry = some (some urls, none)
      ∧ urls.length = keys.length
      ∧ ∀ (i : Nat) (hi : i < keys.length) (hi2 : i < urls.length),
          urls[i] = (d.GetSignedURL keys[i] expiry).fst) := by
  constructor
  · have hspawn : spawnAll m.GetURL keys = some (keys.map d.GetURL) :=
      spawnAll_eq_map _ _ _ fun k _ => by simp [MediaManagerImpl.GetURL, hd]
    have hfe : firstError ((keys.map d.GetURL).map Prod.snd) = none := by
      rw [firstError_eq_none_iff]
      intro x hx
      simp only [List.map_map, List.mem_map, Function.comp] at hx
      rcases hx with ⟨k, hk, rfl⟩
      exact hu k hk
    refine ⟨(keys.map d.GetURL).map Prod.fst, ?_, by simp, ?_⟩
    · simp only [MediaManagerImpl.GetURLs, hspawn, Option.map_some', hfe]
    · intro i hi hi2
      simp
  · have hspawn : spawnAll (fun k => m.GetSignedURL k expiry) keys
        = some (keys.map fun k => d.GetSignedURL k expiry) :=
      spawnAll_eq_map _ _ _ fun k _ => by
        simp [MediaManagerImpl.GetSignedURL, hd]
    have hfe : firstError
        (((keys.map fun k => d.GetSignedURL k expiry).map Prod.snd)) = none := by
      rw [firstError_eq_none_iff]
      intro x hx
      simp only [List.map_map, List.mem_map, Function.comp] at hx
      rcases hx with ⟨k, hk, rfl⟩
      exact hs k hk
    refine ⟨(keys.map fun k => d.GetSignedURL k expiry).map Prod.fst, ?_,
      by simp, ?_⟩
    · simp only [MediaManagerImpl.GetSignedURLs, hspawn, Option.map_some', hfe]
    · intro i hi hi2
      simp

/-- Claim C1 witness: `okManager` over keys `["a", "b"]`. -/
theorem batch_all_success_witness :
    okManager.defaultStorage = some okDriver
    ∧ (["a", "b"] : List String) ≠ []
    ∧ (∀ k ∈ (["a", "b"] : List String), (okDriver.GetURL k).snd = none)
    ∧ (∀ k ∈ (["a", "b"] : List String), (okDriver.GetSignedURL k 60).snd = none)
    ∧ ((∃ urls, okManager.GetURLs ["a", "b"] = some (some urls, none)
        ∧ urls.length = (["a", "b"] : List String).length
        ∧ ∀ (i : Nat) (hi : i < (["a", "b"] : List String).length)
            (hi2 : i < urls.length),
            urls[i] = (okDriver.GetURL (["a", "b"] : List String)[i]).fst)
      ∧ (∃ urls, okManager.GetSignedURLs ["a", "b"] 60 = some (some urls, none)
        ∧ urls.length = (["a", "b"] : List String).length
        ∧ ∀ (i : Nat) (hi : i < (["a", "b"] : List String).length)
            (hi2 : i < urls.length),
            urls[i] = (okDriver.GetSignedURL (["a", "b"] : List String)[i] 60).fst)) :=
  ⟨rfl, by simp, by decide, by decide,
   batch_all_success okManager okDriver ["a", "b"] 60 rfl (by simp)
     (by decide) (by decide)⟩

/-- Claim C2: for every key sequence on which at least one per-key driver
call fails, each batch operation returns the first error encountered (lowest
index, the consistent deterministic tie-break of the embedding) and, for
`GetURLs`/`GetSignedURLs`, a nil result sequence; per-key successes from the
same batch are never surfaced. -/
theorem batch_first_error (m : MediaManagerImpl) (d : StorageDriver)
    (keys : List String) (expiry : Nat)
    (hd : m.defaultStorage = some d) :
    ((∃ k ∈ keys, d.Delete k ≠ none) →
      ∃ e, firstError (keys.map d.Delete) = some e
        ∧ m.DeleteMany keys = some (some e))
    ∧ ((∃ k ∈ keys, (d.GetURL k).snd ≠ none) →
      ∃ e, firstError (keys.map fun k => (d.GetURL k).snd) = some e
        ∧ m.GetURLs keys = some (none, some e))
    ∧ ((∃ k ∈ keys, (d.GetSignedURL k expiry).snd ≠ none) →
      ∃ e, firstError (keys.map fun k => (d.GetSignedURL k expiry).snd) = some e
        ∧ m.GetSignedURLs keys expiry = some (none, some e)) := by
  refine ⟨?_, ?_, ?_⟩
  · rintro ⟨k, hk, hfail⟩
    have hspawn : spawnAll m.Delete keys = some (keys.map d.Delete) :=
      spawnAll_eq_map _ _ _ fun x _ => by simp [MediaManagerImpl.Delete, hd]
    rcases firstError_isSome (keys.map d.Delete)
        ⟨d.Delete k, List.mem_map_of_mem _ hk, hfail⟩ with ⟨e, he⟩
    refine ⟨e, he, ?_⟩
    simp only [MediaManagerImpl.DeleteMany, hspawn, Option.map_some', he]
  · rintro ⟨k, hk, hfail⟩
    have hspawn : spawnAll m.GetURL keys = some (keys.map d.GetURL) :=
      spawnAll_eq_map _ _ _ fun x _ => by simp [MediaManagerImpl.GetURL, hd]
    have hmm : (keys.map d.GetURL).map Prod.snd
        = keys.map fun x => (d.GetURL x).snd := by
      rw [List.map_map]; rfl
    rcases firstError_isSome (keys.map fun x => (d.GetURL x).snd)
        ⟨(d.GetURL k).snd, List.mem_map_of_mem _ hk, hfail⟩ with ⟨e, he⟩
    refine ⟨e, he, ?_⟩
    simp only [MediaManagerImpl.GetURLs, hspawn, Option.map_some', hmm, he]
  · rintro ⟨k, hk, hfail⟩
    have hspawn : spawnAll (fun x => m.GetSignedURL x expiry) keys
        = some (keys.map fun x => d.GetSignedURL x expiry) :=
      spawnAll_eq_map _ _ _ fun x _ => by
        simp [MediaManagerImpl.GetSignedURL, hd]
    have hmm : (keys.map fun x => d.GetSignedURL x expiry).map Prod.snd
        = keys.map fun x => (d.GetSignedURL x expiry).snd := by
      rw [List.map_map]; rfl
    rcases firstError_isSome (keys.map fun x => (d.GetSignedURL x expiry).snd)
        ⟨(d.GetSignedURL k expiry).snd, List.mem_map_of_mem _ hk, hfail⟩
      with ⟨e, he⟩
    refine ⟨e, he, ?_⟩
    simp only [MediaManagerImpl.GetSignedURLs, hspawn, Option.map_some', hmm, he]

/-- Claim C2 witness: `badManager` over keys `["a", "bad"]`, whose driver
fails on `"bad"`: all three batch operations report that first error and the
URL batches return a nil sequence, discarding the success on `"a"`. -/
theorem batch_first_error_witness :
    badManager.defaultStorage = some badDriver
    ∧ (∃ k ∈ (["a", "bad"] : List String), badDriver.Delete k ≠ none)
    ∧ (∃ k ∈ (["a", "bad"] : List String), (badDriver.GetURL k).snd ≠ none)
    ∧ (∃ k ∈ (["a", "bad"] : List String),
        (badDriver.GetSignedURL k 60).snd ≠ none)
    ∧ (∃ e, firstError ((["a", "bad"] : List String).map badDriver.Delete)
          = some e
        ∧ badManager.DeleteMany ["a", "bad"] = some (some e))
    ∧ (∃ e, firstError ((["a", "bad"] : List String).map
            fun k => (badDriver.GetURL k).snd) = some e
        ∧ badManager.GetURLs ["a", "bad"] = some (none, some e))
    ∧ (∃ e, firstError ((["a", "bad"] : List String).map
            fun k => (badDriver.GetSignedURL k 60).snd) = some e
        ∧ badManager.GetSignedURLs ["a", "bad"] 60 = some (none, some e)) :=
  ⟨rfl, by decide, by decide, by decide,
   (batch_first_error badManager badDriver ["a", "bad"] 60 rfl).1 (by decide),
   (batch_first_error badManager badDriver ["a", "bad"] 60 rfl).2.1 (by decide),
   (batch_first_error badManager badDriver ["a", "bad"] 60 rfl).2.2 (by decide)⟩

/-- Claim C10: whenever `GetURLs` or `GetSignedURLs` returns (without a nil
dereference), the result sequence is nil exactly when the error is non-nil;
with a nil error the result is a non-nil sequence of the input's length, and
for the empty key list it is the non-nil empty sequence. -/
theorem batch_nil_iff_error (m : MediaManagerImpl) (keys : List String)
    (expiry : Nat) :
    (∀ res err, m.GetURLs keys = some (res, err) →
      ((res = none ↔ err ≠ none)
        ∧ (err = none → ∃ us, res = some us ∧ us.length = keys.length)))
    ∧ (∀ res err, m.GetSignedURLs keys expiry = some (res, err) →
      ((res = none ↔ err ≠ none)
        ∧ (err = none → ∃ us, res = some us ∧ us.length = keys.length)))
    ∧ (keys = [] →
        m.GetURLs keys = some (some [], none)
        ∧ m.GetSignedURLs keys expiry = some (some [], none)) := by
  refine ⟨?_, ?_, ?_⟩
  · intro res err h
    simp only [MediaManagerImpl.GetURLs] at h
    cases hspawn : spawnAll m.GetURL keys with
    | none => rw [hspawn] at h; exact absurd h (by simp)
    | some results =>
      rw [hspawn] at h
      simp only [Option.map_some', Option.some.injEq] at h
      cases hfe : firstError (results.map Prod.snd) with
      | some e =>
        rw [hfe] at h
        rw [Prod.mk.injEq] at h
        obtain ⟨hr, he2⟩ := h
        subst hr
        subst he2
        simp
      | none =>
        rw [hfe] at h
        rw [Prod.mk.injEq] at h
        obtain ⟨hr, he2⟩ := h
        subst hr
        subst he2
        refine ⟨by simp, fun _ => ⟨results.map Prod.fst, rfl, ?_⟩⟩
        simp [spawnAll_length _ _ _ hspawn]
  · intro res err h
    simp only [MediaManagerImpl.GetSignedURLs] at h
    cases hspawn : spawnAll (fun k => m.GetSignedURL k expiry) keys with
    | none => rw [hspawn] at h; exact absurd h (by simp)
    | some results =>
      rw [hspawn] at h
      simp only [Option.map_some', Option.some.injEq] at h
      cases hfe : firstError (results.map Prod.snd) with
      | some e =>
        rw [hfe] at h
        rw [Prod.mk.injEq] at h
        obtain ⟨hr, he2⟩ := h
        subst hr
        subst he2
        simp
      | none =>
        rw [hfe] at h
        rw [Prod.mk.injEq] at h
        obtain ⟨hr, he2⟩ := h
        subst hr
        subst he2
        refine ⟨by simp, fun _ => ⟨results.map Prod.fst, rfl, ?_⟩⟩
        simp [spawnAll_length _ _ _ hspawn]
  · intro hk
    subst hk
    exact ⟨rfl, rfl⟩

/-- Claim C10 witness: the error case at `badManager` over `["a", "bad"]` and
the empty-keys case at `okManager`. -/
theorem batch_nil_iff_error_witness :
    badManager.GetURLs ["a", "bad"] = some (none, some Err.internal)
    ∧ (((none : Option (List String)) = none
          ↔ (some Err.internal : Option Err) ≠ none)
        ∧ ((some Err.internal : Option Err) = none →
            ∃ us, (none : Option (List String)) = some us
              ∧ us.length = (["a", "bad"] : List String).length))
    ∧ (okManager.GetURLs [] = some (some [], none)
        ∧ okManager.GetSignedURLs [] 60 = some (some [], none)) := by
  have hcall : badManager.GetURLs ["a", "bad"]
      = some (none, some Err.internal) := by decide
  exact ⟨hcall,
    (batch_nil_iff_error badManager ["a", "bad"] 60).1 none
      (some Err.internal) hcall,
    (batch_nil_iff_error okManager [] 60).2.2 rfl⟩

end GoMedia
